import Mathlib

/-!
Shallow embedding of the transKriptor concurrent-orchestration core
(event bus, microphone capture, hotkey detection, whisper lifecycle
manager), translated from the Python sources, together with theorems
settling the specification claims.
-/

namespace TransKriptor

/-! ### Event bus (src/src/utils/event_bus.py)

Handlers are identified by natural numbers (Python compares handlers by
object identity, which we model with a decidable identifier).  The
registry `_handlers : Dict[str, List[Callable]]` is modelled as an
association list from event names to handler-id lists.  The behaviour
of a handler when invoked is a function `Nat → Except String Unit`:
`Except.error` models a raised exception. -/

/-- Registry of handlers, keyed by event name: `EventBus._handlers`. -/
def Bus : Type := List (String × List Nat)

/-- Lookup of `self._handlers.get(event_name, [])`. -/
def handlersOf : Bus → String → List Nat
  | [], _ => []
  | (k, l) :: rest, n => if k = n then l else handlersOf rest n

/-- Model of `EventBus.subscribe`: create the key if absent, then append the
handler only if it is not already registered for this event name. -/
def busSubscribe : Bus → String → Nat → Bus
  | [], n, h => [(n, [h])]
  | (k, l) :: rest, n, h =>
    if k = n then (k, if l.contains h then l else l ++ [h]) :: rest
    else (k, l) :: busSubscribe rest n h

/-- Outcome of one guarded handler call: the `try/except` around
`handler(event)` in `EventBus.publish` turns a raised exception into a
logged message (`some msg`) and a normal return into `none`. -/
def errOf : Except String Unit → Option String
  | Except.ok _ => none
  | Except.error e => some e

/-- The body of one loop iteration of `EventBus.publish`: invoke the
handler, catching any exception and logging it instead of re-raising. -/
def tryLog (act : Except String Unit) : Except String (Option String) :=
  tryCatch (do let _ ← act; pure none) (fun e => pure (some e))

/-- The handler loop of `EventBus.publish`, in an exception monad: an
exception escaping the loop would surface as `Except.error`.  Returns
the trace of handlers invoked, in order, each with its logged error. -/
def publishLoop (beh : Nat → Except String Unit) :
    List Nat → Except String (List (Nat × Option String))
  | [] => pure []
  | h :: hs => do
    let lg ← tryLog (beh h)
    let rest ← publishLoop beh hs
    pure ((h, lg) :: rest)

/-- Model of `EventBus.publish`: snapshot the handler list for the name, then run
the handler loop on the snapshot. -/
def busPublish (bus : Bus) (n : String) (beh : Nat → Except String Unit) :
    Except String (List (Nat × Option String)) :=
  publishLoop beh (handlersOf bus n)

/-! ### Segment concatenation (WhisperManager._transcribe_audio) -/

/-- Python `str` whitespace as used by `str.strip()` (ASCII range). -/
def isPySpace (c : Char) : Bool :=
  c = ' ' || c = '\t' || c = '\n' || c = '\r' || c = '\x0b' || c = '\x0c'

/-- Removal of trailing whitespace only. -/
def dropTrailingWS (l : List Char) : List Char :=
  (l.reverse.dropWhile isPySpace).reverse

/-- Python `str.strip()`: remove whitespace from both ends. -/
def pyStrip (l : List Char) : List Char :=
  (dropTrailingWS l).dropWhile isPySpace

/-- The accumulation loop of `_transcribe_audio`:
`transcription += segment.text + " "` over all segments, followed by
`transcription.strip()`. -/
def transcribeAudio (segs : List (List Char)) : List Char :=
  pyStrip (segs.foldl (fun acc s => acc ++ s ++ [' ']) [])

/-- Modelled from the spec: "the segments joined by single spaces"
(a single separating space between consecutive segments, none at the
ends). -/
def joinSpaces : List (List Char) → List Char
  | [] => []
  | [s] => s
  | s :: t :: rest => s ++ ' ' :: joinSpaces (t :: rest)

/-- The concatenation `s₁ ++ " " ++ s₂ ++ " " ++ ...` built by the
`for segment in segments` loop (before stripping). -/
def concatSp : List (List Char) → List Char
  | [] => []
  | s :: rest => s ++ ' ' :: concatSp rest

/-! ### Python queues (`queue.Queue`)

`queue.Queue(maxsize)` is unbounded when `maxsize <= 0` (the default
constructor `queue.Queue()` passes `maxsize = 0`).  `put_nowait` raises
`queue.Full` exactly when `0 < maxsize` and `qsize() >= maxsize`; on an
unbounded queue it always succeeds.  `none` models the raised
`queue.Full` (for `put_nowait`) or the producer blocking (for `put`). -/

structure PyQueue (α : Type) where
  maxsize : Nat
  items : List α
deriving DecidableEq, Repr

/-- Model of `Queue.put_nowait` / `Queue.put`: fails only on a bounded, full
queue; otherwise appends at the tail. -/
def pyPutNowait {α : Type} (q : PyQueue α) (x : α) : Option (PyQueue α) :=
  if 0 < q.maxsize ∧ q.maxsize ≤ q.items.length then none
  else some { q with items := q.items ++ [x] }

/-! ### Whisper lifecycle manager (src/src/models/whisper_manager.py)

Audio chunks are identified by natural numbers and timestamps are
naturals.  Fields mirror `WhisperManager.__init__`: `is_loaded`,
`is_loading`, the `model` reference (`hasModel`), `last_activity_time`,
`unload_timer` (a pending `threading.Timer`, `none` when cancelled) and
`transcription_queue` (constructed as `queue.Queue()`, i.e. unbounded:
`maxsize = 0`). -/

structure WMState where
  isLoaded : Bool
  isLoading : Bool
  hasModel : Bool
  lastActivityTime : Nat
  unloadTimer : Option Nat
  transcriptionQueue : PyQueue Nat
deriving DecidableEq, Repr

/-- The manager state right after `WhisperManager.__init__`. -/
def initWM : WMState :=
  { isLoaded := false
    isLoading := false
    hasModel := false
    lastActivityTime := 0
    unloadTimer := none
    transcriptionQueue := { maxsize := 0, items := [] } }

/-- Model of `WhisperManager.load_model` (the critical section under
`model_lock`): a no-op if already loaded or loading, otherwise marks
the manager loading and spawns the load thread.  The boolean records
whether a load thread was started by this call. -/
def loadModel (s : WMState) : WMState × Bool :=
  if s.isLoaded || s.isLoading then (s, false)
  else ({ s with isLoading := true }, true)

/-- Result of the asynchronous engine instantiation attempted by
`WhisperManager._load_model_thread`. -/
inductive LoadOutcome
  | success (now : Nat)
  | failure (msg : List Char)

/-- Events published on the bus by the lifecycle manager. -/
inductive WEvent
  | modelLoaded
  | modelLoadError (msg : List Char)
  | modelUnloaded
  | transcriptionResult (text : List Char) (ts : Nat)
deriving DecidableEq, Repr

/-- Model of `WhisperManager._load_model_thread`: on success sets the model
reference, marks the manager loaded, records the activity time and
publishes `model_loaded`; on an exception (caught — the thread returns
normally and the process survives) it only clears `is_loading` and
publishes `model_load_error` with the failure reason. -/
def loadModelThread (s : WMState) (res : LoadOutcome) : WMState × List WEvent :=
  match res with
  | .success now =>
    ({ s with hasModel := true, isLoaded := true, isLoading := false,
              lastActivityTime := now }, [WEvent.modelLoaded])
  | .failure msg =>
    ({ s with isLoading := false }, [WEvent.modelLoadError msg])

/-- Model of `WhisperManager._on_audio_chunk`: a chunk arriving while not loaded
is discarded by the early return.  Otherwise the activity timestamp is
refreshed, a pending unload timer is cancelled, and the chunk is
enqueued with `put_nowait`; `queue.Full` is caught and logged as a
warning (the boolean records that the warning fired and the chunk was
dropped). -/
def onAudioChunk (s : WMState) (now : Nat) (chunkId : Nat) : WMState × Bool :=
  if s.isLoaded = false then (s, false)
  else
    let s1 := { s with lastActivityTime := now, unloadTimer := none }
    match pyPutNowait s1.transcriptionQueue chunkId with
    | some q => ({ s1 with transcriptionQueue := q }, false)
    | none => (s1, true)

/-- Iterated delivery of `n` successive `audio_chunk` events (chunk ids `0, 1, ...`)
with no intervening worker activity. -/
def feedChunks (s : WMState) (now : Nat) : Nat → WMState
  | 0 => s
  | n + 1 => (onAudioChunk (feedChunks s now n) now n).1

/-- The manager after `load_model` from the initial state and a
successful `_load_model_thread`. -/
def loadedWM (now : Nat) : WMState :=
  (loadModelThread (loadModel initWM).1 (.success now)).1

/-- One iteration of `WhisperManager._transcription_worker`: dequeue a
chunk (nothing happens on an empty queue beyond the timeout); if still
loaded with a live model, transcribe it and publish
`transcription_result` with the text and timestamp.  The engine is the
stub `engine : chunk ↦ returned text segments`. -/
def workerStep (s : WMState) (engine : Nat → List (List Char)) (now : Nat) :
    WMState × List WEvent :=
  match s.transcriptionQueue.items with
  | [] => (s, [])
  | c :: rest =>
    let s1 := { s with transcriptionQueue := { s.transcriptionQueue with items := rest } }
    if s.isLoaded && s.hasModel then
      (s1, [WEvent.transcriptionResult (transcribeAudio (engine c)) now])
    else (s1, [])

/-! ### Microphone manager (src/src/audio/microphone.py)

Audio blocks are identified by naturals.  `audio_queue` is constructed
as `queue.Queue()` (unbounded); boundedness is enforced by the guard
`self.audio_queue.qsize() < 10` inside `_audio_callback`. -/

structure MicState where
  isCapturing : Bool
  audioQueue : PyQueue Nat
deriving DecidableEq, Repr

/-- The microphone manager state right after `MicrophoneManager.__init__`. -/
def initMic : MicState :=
  { isCapturing := false, audioQueue := { maxsize := 0, items := [] } }

/-- Model of `MicrophoneManager._audio_callback`: push the arriving block only
when capturing and fewer than 10 blocks are queued; otherwise the block
is dropped with no side effect (and no log).  The boolean records
whether the `put` would have blocked the producer (never, on this
unbounded queue). -/
def audioCallback (s : MicState) (block : Nat) : MicState × Bool :=
  if s.isCapturing && decide (s.audioQueue.items.length < 10) then
    match pyPutNowait s.audioQueue block with
    | some q => ({ s with audioQueue := q }, false)
    | none => (s, true)
  else (s, false)

/-- A whole sequence of producer-callback deliveries. -/
def runAudioCallbacks (s : MicState) : List Nat → MicState
  | [] => s
  | b :: bs => runAudioCallbacks (audioCallback s b).1 bs

/-! ### Hotkey manager (src/src/hotkey/hotkey_manager.py)

`pynput` key objects are either special keys (`keyboard.Key.ctrl_l`,
...) or regular-key objects.  `_parse_hotkey` stores the *strings*
`part.lower()` / `part.upper()` for regular keys, while the listener
delivers key objects; `PKey.str` covers both, generously identifying a
delivered regular key with the equal-spelling parsed string (under
real `pynput` semantics a parsed `str` never compares equal to a
delivered `KeyCode`, which only makes chord satisfaction harder). -/

inductive PKey
  | ctrlL | ctrlR | altL | altR | shiftL | shiftR | cmdL | cmdR
  | str (s : List Char)
deriving DecidableEq, Repr

/-- Python `set.add`. -/
def setAdd {α : Type} [DecidableEq α] (l : List α) (a : α) : List α :=
  if a ∈ l then l else l ++ [a]

/-- Python string splitting on the plus sign, on a character list. -/
def splitPlus : List Char → List (List Char)
  | [] => [[]]
  | c :: rest =>
    if c = '+' then [] :: splitPlus rest
    else
      match splitPlus rest with
      | [] => [[c]]
      | p :: ps => (c :: p) :: ps

/-- Model of `HotkeyManager._parse_hotkey`: split the (already lowercased)
hotkey string on `+` after removing spaces; modifiers contribute both
their left and right variants, every other part contributes both its
lowercase and its uppercase spelling. -/
def parseHotkey (hotkeyStr : List Char) : List PKey :=
  (splitPlus (hotkeyStr.filter (fun c => c != ' '))).foldl
    (fun acc part =>
      if part = "ctrl".toList ∨ part = "control".toList then
        setAdd (setAdd acc PKey.ctrlL) PKey.ctrlR
      else if part = "alt".toList then
        setAdd (setAdd acc PKey.altL) PKey.altR
      else if part = "shift".toList then
        setAdd (setAdd acc PKey.shiftL) PKey.shiftR
      else if part = "win".toList ∨ part = "cmd".toList then
        setAdd (setAdd acc PKey.cmdL) PKey.cmdR
      else
        setAdd (setAdd acc (PKey.str (part.map Char.toLower)))
          (PKey.str (part.map Char.toUpper)))
    []

/-- One required entry of `pressed_keys`, checked against the held set
as in the body of the `for required_key in self.pressed_keys` loop of
`_is_hotkey_pressed`: a modifier passes when either its left or right
variant is held, a regular entry only when the entry itself is held. -/
def keySatisfied (cur : List PKey) : PKey → Bool
  | .ctrlL | .ctrlR => cur.contains PKey.ctrlL || cur.contains PKey.ctrlR
  | .altL | .altR => cur.contains PKey.altL || cur.contains PKey.altR
  | .shiftL | .shiftR => cur.contains PKey.shiftL || cur.contains PKey.shiftR
  | .cmdL | .cmdR => cur.contains PKey.cmdL || cur.contains PKey.cmdR
  | .str s => cur.contains (PKey.str s)

/-- Model of `HotkeyManager._is_hotkey_pressed`: false on an empty configured
chord, otherwise every entry of `pressed_keys` must pass its check. -/
def isHotkeyPressed (req cur : List PKey) : Bool :=
  if req.isEmpty then false else req.all (keySatisfied cur)

/-- Hotkey manager state: `pressed_keys` (the parsed chord),
`current_hotkey` (the held-key set) and whether a callback is set. -/
structure HMState where
  required : List PKey
  current : List PKey
  hasCallback : Bool
deriving DecidableEq, Repr

/-- Model of `HotkeyManager.initialize(hotkey, callback)`: lowercase the chord
string, parse it, and start with an empty held set. -/
def hmInit (hotkeyStr : List Char) (hasCb : Bool) : HMState :=
  { required := parseHotkey (hotkeyStr.map Char.toLower)
    current := []
    hasCallback := hasCb }

/-- Model of `HotkeyManager._on_key_press`: add the key to the held set; if the
chord test passes, invoke the callback (when set) and clear the held
set.  The boolean records a callback invocation. -/
def onKeyPress (st : HMState) (k : PKey) : HMState × Bool :=
  let cur := setAdd st.current k
  if isHotkeyPressed st.required cur then
    ({ st with current := [] }, st.hasCallback)
  else ({ st with current := cur }, false)

/-- Model of `HotkeyManager._on_key_release`: drop the key from the held set. -/
def onKeyRelease (st : HMState) (k : PKey) : HMState :=
  { st with current := st.current.filter (fun x => x != k) }

/-- A raw key event delivered by the listener. -/
inductive KEvent
  | press (k : PKey)
  | release (k : PKey)
deriving DecidableEq, Repr

/-- Dispatch of one listener event. -/
def stepKey (st : HMState) : KEvent → HMState × Bool
  | .press k => onKeyPress st k
  | .release k => (onKeyRelease st k, false)

/-- Run a sequence of key events, counting callback invocations. -/
def runKeys : HMState → List KEvent → HMState × Nat
  | st, [] => (st, 0)
  | st, e :: es =>
    let r := stepKey st e
    let rest := runKeys r.1 es
    (rest.1, (if r.2 then 1 else 0) + rest.2)

/-- Model of `HotkeyManager.unregister_hotkey`: clear both the configured chord
set and the held-key set. -/
def unregisterHotkey (st : HMState) : HMState :=
  { st with required := [], current := [] }

/-- The hotkey manager freshly set up with the default chord
`ctrl+alt+t` and a registered toggle callback. -/
def chordState : HMState := hmInit ("ctrl+alt+t".toList) true

/-- The microphone manager while capturing (after `start_capture`). -/
def micCapturing : MicState := { initMic with isCapturing := true }

/-- The loaded manager with a single chunk (id 0) queued. -/
def wmSegState : WMState := (onAudioChunk (loadedWM 3) 3 0).1

/-- A stub engine whose returned segment starts with a space — the
shape real recognition engines produce (segments usually carry a
leading space). -/
def engineLeadingSpace : Nat → List (List Char) := fun _ => [[' ', 'a']]

/-! ## Supporting lemmas -/

/-- A guarded handler call returns normally with the caught outcome. -/
theorem tryLog_eq (act : Except String Unit) : tryLog act = pure (errOf act) := by
  cases act <;> rfl

/-- The publish loop never propagates a handler exception and yields
one trace entry per registered handler, in order. -/
theorem publishLoop_eq (beh : Nat → Except String Unit) (hs : List Nat) :
    publishLoop beh hs = Except.ok (hs.map fun h => (h, errOf (beh h))) := by
  induction hs with
  | nil => rfl
  | cons h hs ih =>
    simp only [publishLoop, tryLog_eq, ih, List.map_cons]
    rfl

/-- Effect of `subscribe` on the handler list of the subscribed name. -/
theorem handlersOf_subscribe_self (bus : Bus) (n : String) (h : Nat) :
    handlersOf (busSubscribe bus n h) n =
      if (handlersOf bus n).contains h then handlersOf bus n
      else handlersOf bus n ++ [h] := by
  induction bus with
  | nil => simp [busSubscribe, handlersOf]
  | cons e rest ih =>
    obtain ⟨k, l⟩ := e
    by_cases hk : k = n
    · subst hk
      simp [busSubscribe, handlersOf]
    · simp [busSubscribe, handlersOf, hk, ih]

/-- Subscribing is the identity when the handler is already registered
for the name. -/
theorem busSubscribe_of_contains (bus : Bus) (n : String) (h : Nat)
    (hc : (handlersOf bus n).contains h = true) :
    busSubscribe bus n h = bus := by
  induction bus with
  | nil => simp [handlersOf] at hc
  | cons e rest ih =>
    obtain ⟨k, l⟩ := e
    by_cases hk : k = n
    · subst hk
      simp [handlersOf] at hc
      simp [busSubscribe, hc]
    · simp only [handlersOf, if_neg hk] at hc
      simp [busSubscribe, hk, ih hc]

/-- The segment loop of `_transcribe_audio` appends
`segment + " "` for every segment, starting from the accumulator. -/
theorem foldl_sp_eq (segs : List (List Char)) :
    ∀ acc : List Char,
      segs.foldl (fun a s => a ++ s ++ [' ']) acc = acc ++ concatSp segs := by
  induction segs with
  | nil => intro acc; simp [concatSp]
  | cons s rest ih =>
    intro acc
    simp only [List.foldl_cons, concatSp]
    rw [ih]
    simp [List.append_assoc]

/-- On a non-empty segment list, the concatenation built by the loop
is the single-space join followed by one trailing space. -/
theorem concatSp_eq_join (s : List Char) (rest : List (List Char)) :
    concatSp (s :: rest) = joinSpaces (s :: rest) ++ [' '] := by
  induction rest generalizing s with
  | nil => simp [concatSp, joinSpaces]
  | cons t r ih =>
    have step : concatSp (s :: t :: r) = s ++ ' ' :: concatSp (t :: r) := rfl
    rw [step, ih t]
    simp [joinSpaces, List.append_assoc]

/-- Removing trailing whitespace absorbs a final space. -/
theorem dropTrailingWS_append_space (x : List Char) :
    dropTrailingWS (x ++ [' ']) = dropTrailingWS x := by
  simp [dropTrailingWS, List.dropWhile, isPySpace]

/-- Stripping absorbs a final space. -/
theorem pyStrip_append_space (x : List Char) :
    pyStrip (x ++ [' ']) = pyStrip x := by
  simp [pyStrip, dropTrailingWS_append_space]

/-- What `_transcribe_audio` computes from the segments returned by
the engine: the single-space join stripped of whitespace at both ends. -/
theorem transcribeAudio_eq_strip (segs : List (List Char)) :
    transcribeAudio segs = pyStrip (joinSpaces segs) := by
  cases segs with
  | nil => rfl
  | cons s rest =>
    unfold transcribeAudio
    rw [foldl_sp_eq (s :: rest) [], List.nil_append, concatSp_eq_join,
      pyStrip_append_space]

/-- One `audio_chunk` delivery while loaded, on the (unbounded)
transcription queue: timestamp refreshed, timer cancelled, chunk
appended, no drop and no warning. -/
theorem onAudioChunk_loaded_step (s : WMState) (now c : Nat)
    (hl : s.isLoaded = true) (hm : s.transcriptionQueue.maxsize = 0) :
    onAudioChunk s now c =
      ({ isLoaded := s.isLoaded, isLoading := s.isLoading,
         hasModel := s.hasModel, lastActivityTime := now,
         unloadTimer := none,
         transcriptionQueue :=
           { maxsize := s.transcriptionQueue.maxsize,
             items := s.transcriptionQueue.items ++ [c] } }, false) := by
  unfold onAudioChunk pyPutNowait
  simp [hl, hm]

/-- Invariants of repeated chunk delivery to the loaded manager: the
manager stays loaded, the queue stays unbounded, and its length equals
the number of chunks delivered. -/
theorem feedChunks_loaded_props (now : Nat) : ∀ n : Nat,
    (feedChunks (loadedWM now) now n).isLoaded = true
    ∧ (feedChunks (loadedWM now) now n).transcriptionQueue.maxsize = 0
    ∧ (feedChunks (loadedWM now) now n).transcriptionQueue.items.length = n := by
  intro n
  induction n with
  | zero => exact ⟨rfl, rfl, rfl⟩
  | succ k ih =>
    obtain ⟨h1, h2, h3⟩ := ih
    simp [feedChunks, onAudioChunk_loaded_step _ _ _ h1 h2, h1, h2, h3]

/-- With an empty configured chord the satisfaction test is false. -/
theorem isHotkeyPressed_nil (cur : List PKey) :
    isHotkeyPressed [] cur = false := rfl

/-- Key events never change the configured chord, and with an empty
chord the callback can never fire. -/
theorem runKeys_empty_required (evs : List KEvent) :
    ∀ st : HMState, st.required = [] →
      (runKeys st evs).1.required = [] ∧ (runKeys st evs).2 = 0 := by
  induction evs with
  | nil => intro st h; exact ⟨h, rfl⟩
  | cons e es ih =>
    intro st h
    cases e with
    | press k =>
      have hfalse : isHotkeyPressed st.required (setAdd st.current k) = false := by
        rw [h]; rfl
      have := ih { st with current := setAdd st.current k } (by simpa using h)
      simp [runKeys, stepKey, onKeyPress, hfalse, this.1, this.2]
    | release k =>
      have := ih (onKeyRelease st k) (by simpa [onKeyRelease] using h)
      simp [runKeys, stepKey, this.1, this.2]

/-- The producer callback preserves the invariant that the audio queue
is unbounded and holds at most 10 blocks, never blocks, and drops the
block (with no other effect) when 10 blocks are already held. -/
theorem audioCallback_step (s : MicState) (b : Nat)
    (hms : s.audioQueue.maxsize = 0)
    (hlen : s.audioQueue.items.length ≤ 10) :
    (audioCallback s b).1.audioQueue.maxsize = 0
    ∧ (audioCallback s b).1.audioQueue.items.length ≤ 10
    ∧ (audioCallback s b).2 = false
    ∧ (s.audioQueue.items.length = 10 → (audioCallback s b).1 = s) := by
  unfold audioCallback pyPutNowait
  by_cases hc : s.isCapturing = true
  · by_cases hlt : s.audioQueue.items.length < 10
    · simp [hc, hlt, hms]
      omega
    · simp [hc, hlt, hms, hlen]
  · simp at hc
    simp [hc, hms, hlen]

/-- Any sequence of producer callbacks keeps the audio queue at no more
than 10 blocks. -/
theorem runAudioCallbacks_bounded (bs : List Nat) :
    ∀ s : MicState, s.audioQueue.maxsize = 0 →
      s.audioQueue.items.length ≤ 10 →
      (runAudioCallbacks s bs).audioQueue.items.length ≤ 10 := by
  induction bs with
  | nil => intro s _ hlen; exact hlen
  | cons b rest ih =>
    intro s hms hlen
    obtain ⟨h1, h2, _, _⟩ := audioCallback_step s b hms hlen
    exact ih _ h1 h2

/-! ## Claim theorems -/

/-- Claim C1 (refuted — the code violates it): the spec claims the
transcription work queue is a bounded buffer with drop-on-full
semantics that never grows unboundedly.  The code constructs it as
`queue.Queue()` with the default `maxsize = 0`, i.e. unbounded, so
`put_nowait` never raises `queue.Full`: after `n` chunk deliveries to
the loaded manager the queue holds exactly `n` chunks — it grows
without bound — and the drop-with-warning branch never fires. -/
theorem wm_transcription_queue_unbounded_growth (now n : Nat) :
    (feedChunks (loadedWM now) now n).transcriptionQueue.items.length = n
    ∧ (onAudioChunk (feedChunks (loadedWM now) now n) now (n + 1)).2 = false := by
  obtain ⟨h1, h2, h3⟩ := feedChunks_loaded_props now n
  refine ⟨h3, ?_⟩
  rw [onAudioChunk_loaded_step _ _ _ h1 h2]

/-- Claim C2 (refuted — the code violates it): with the configured
chord `ctrl+alt+t`, pressing a ctrl key, an alt key and the t key in
any order is claimed to invoke the toggle callback exactly once.  But
`_parse_hotkey` stores both the lowercase and the uppercase spelling of
a regular key and `_is_hotkey_pressed` requires every stored entry to
be held simultaneously, so a single t press can never satisfy both
`'t'` and `'T'`: the callback is never invoked — count 0, not 1 — in
all six press orders, with either left or right modifiers, and whether
the t press delivers `'t'` or `'T'`. -/
theorem hotkey_chord_never_fires_cex :
    (runKeys chordState
      [KEvent.press PKey.ctrlL, KEvent.press PKey.altL,
       KEvent.press (PKey.str ['t'])]).2 = 0
    ∧ (runKeys chordState
        [KEvent.press PKey.ctrlL, KEvent.press (PKey.str ['t']),
         KEvent.press PKey.altL]).2 = 0
    ∧ (runKeys chordState
        [KEvent.press PKey.altL, KEvent.press PKey.ctrlL,
         KEvent.press (PKey.str ['t'])]).2 = 0
    ∧ (runKeys chordState
        [KEvent.press PKey.altL, KEvent.press (PKey.str ['t']),
         KEvent.press PKey.ctrlL]).2 = 0
    ∧ (runKeys chordState
        [KEvent.press (PKey.str ['t']), KEvent.press PKey.ctrlL,
         KEvent.press PKey.altL]).2 = 0
    ∧ (runKeys chordState
        [KEvent.press (PKey.str ['t']), KEvent.press PKey.altL,
         KEvent.press PKey.ctrlL]).2 = 0
    ∧ (runKeys chordState
        [KEvent.press PKey.ctrlR, KEvent.press PKey.altR,
         KEvent.press (PKey.str ['t'])]).2 = 0
    ∧ (runKeys chordState
        [KEvent.press PKey.ctrlL, KEvent.press PKey.altL,
         KEvent.press (PKey.str ['T'])]).2 = 0 := by
  decide

/-- Claim C3: `load_model` is re-entrant-safe — in any state that is
already loaded or loading, a call returns the state unchanged and
starts no load thread; and from an idle unloaded state, the first call
starts exactly one load and a repeated call while that load is in
flight is a no-op. -/
theorem loadModel_reentrant_noop (s : WMState) :
    (s.isLoaded = true ∨ s.isLoading = true → loadModel s = (s, false))
    ∧ (s.isLoaded = false → s.isLoading = false →
        (loadModel s).2 = true
        ∧ loadModel (loadModel s).1 = ((loadModel s).1, false)) := by
  constructor
  · rintro (h | h) <;> simp [loadModel, h]
  · intro h1 h2
    simp [loadModel, h1, h2]

/-- Witness for C3 at concrete states: the loaded state and the fresh
unloaded state. -/
theorem loadModel_reentrant_noop_witness :
    loadModel (loadedWM 0) = (loadedWM 0, false)
    ∧ ((loadModel initWM).2 = true
        ∧ loadModel (loadModel initWM).1 = ((loadModel initWM).1, false)) :=
  ⟨(loadModel_reentrant_noop (loadedWM 0)).1 (Or.inl rfl),
   (loadModel_reentrant_noop initWM).2 rfl rfl⟩

/-- Claim C4: for every publish, the registered handlers for the name
are invoked sequentially in registration order; a raising handler is
caught (its error logged) and every later handler still runs; publish
itself returns normally (`Except.ok`, never a propagated error). -/
theorem publish_invokes_all_in_order (bus : Bus) (n : String)
    (beh : Nat → Except String Unit) :
    busPublish bus n beh =
      Except.ok ((handlersOf bus n).map fun h => (h, errOf (beh h))) :=
  publishLoop_eq beh (handlersOf bus n)

/-- Claim C5: subscribing the same (name, handler) pair twice, when
the handler was not yet registered, is idempotent and leaves the
handler registered exactly once, so a publish of that name invokes it
exactly once (one trace entry carries it). -/
theorem subscribe_idempotent_once (bus : Bus) (n : String) (hId : Nat)
    (beh : Nat → Except String Unit)
    (h0 : (handlersOf bus n).contains hId = false) :
    busSubscribe (busSubscribe bus n hId) n hId = busSubscribe bus n hId
    ∧ handlersOf (busSubscribe (busSubscribe bus n hId) n hId) n
        = handlersOf bus n ++ [hId]
    ∧ (handlersOf (busSubscribe (busSubscribe bus n hId) n hId) n).count hId = 1
    ∧ busPublish (busSubscribe (busSubscribe bus n hId) n hId) n beh =
        Except.ok ((handlersOf bus n ++ [hId]).map fun h => (h, errOf (beh h)))
    ∧ (((handlersOf bus n ++ [hId]).map fun h => (h, errOf (beh h))).map
        Prod.fst).count hId = 1 := by
  have hmem : hId ∉ handlersOf bus n := by simpa using h0
  have hone : handlersOf (busSubscribe bus n hId) n = handlersOf bus n ++ [hId] := by
    rw [handlersOf_subscribe_self]
    simp [h0, hmem]
  have hcontains : (handlersOf (busSubscribe bus n hId) n).contains hId = true := by
    simp [hone]
  have hidem : busSubscribe (busSubscribe bus n hId) n hId = busSubscribe bus n hId :=
    busSubscribe_of_contains _ _ _ hcontains
  have hcount : (handlersOf bus n ++ [hId]).count hId = 1 := by
    simp [List.count_append, List.count_eq_zero.mpr hmem]
  refine ⟨hidem, by rw [hidem, hone], by rw [hidem, hone]; exact hcount, ?_, ?_⟩
  · rw [hidem]
    unfold busPublish
    rw [hone, publishLoop_eq]
  · have : ((handlersOf bus n ++ [hId]).map fun h => (h, errOf (beh h))).map
        Prod.fst = handlersOf bus n ++ [hId] := by
      have hfun : (Prod.fst ∘ fun h : Nat => (h, errOf (beh h))) = id := rfl
      rw [List.map_map, hfun, List.map_id]
    rw [this]
    exact hcount

/-- Witness for C5 on the empty bus. -/
theorem subscribe_idempotent_once_witness :
    (handlersOf ([] : Bus) "audio_chunk").contains 0 = false
    ∧ busSubscribe (busSubscribe ([] : Bus) "audio_chunk" 0) "audio_chunk" 0
        = busSubscribe ([] : Bus) "audio_chunk" 0
    ∧ (handlersOf
        (busSubscribe (busSubscribe ([] : Bus) "audio_chunk" 0) "audio_chunk" 0)
        "audio_chunk").count 0 = 1 :=
  ⟨rfl,
   (subscribe_idempotent_once [] "audio_chunk" 0
      (fun _ => Except.ok Unit.unit) rfl).1,
   (subscribe_idempotent_once [] "audio_chunk" 0
      (fun _ => Except.ok Unit.unit) rfl).2.2.1⟩

/-- Counterexample for C6: the claim says the published text equals
the segments joined by single spaces with (only) trailing whitespace
trimmed.  With a segment that starts with a space — the shape real
engines return — the code publishes `"a"` (Python `str.strip()` also
removes the leading space) while the claimed value is `" a"`. -/
theorem transcribe_leading_space_cex :
    (workerStep wmSegState engineLeadingSpace 5).2
      = [WEvent.transcriptionResult ['a'] 5]
    ∧ dropTrailingWS (joinSpaces (engineLeadingSpace 0)) = [' ', 'a']
    ∧ (['a'] : List Char) ≠ ([' ', 'a'] : List Char) := by
  decide

/-- Claim C6 as amended: for every chunk transcribed while loaded with
a live engine, the published `transcription_result` text equals the
segments joined by single spaces with leading **and** trailing
whitespace trimmed (Python `str.strip()` trims both ends). -/
theorem transcription_result_strips_both_ends (s : WMState)
    (engine : Nat → List (List Char)) (now c : Nat) (rest : List Nat)
    (hl : s.isLoaded = true) (hm : s.hasModel = true)
    (hq : s.transcriptionQueue.items = c :: rest) :
    (workerStep s engine now).2 =
      [WEvent.transcriptionResult (pyStrip (joinSpaces (engine c))) now] := by
  unfold workerStep
  rw [hq]
  simp [hl, hm, transcribeAudio_eq_strip]

/-- Witness for C6 (amended) at the loaded one-chunk state with the
leading-space stub engine. -/
theorem transcription_result_strips_both_ends_witness :
    wmSegState.isLoaded = true
    ∧ wmSegState.hasModel = true
    ∧ wmSegState.transcriptionQueue.items = 0 :: []
    ∧ (workerStep wmSegState engineLeadingSpace 5).2 =
        [WEvent.transcriptionResult
          (pyStrip (joinSpaces (engineLeadingSpace 0))) 5] :=
  ⟨rfl, rfl, rfl,
   transcription_result_strips_both_ends wmSegState engineLeadingSpace 5 0 []
     rfl rfl rfl⟩

/-- Claim C7: a failed load attempt leaves the manager neither loading
nor loaded (back to Unloaded), publishes exactly one
`model_load_error` event carrying the failure reason (the exception is
caught, so the thread — and the process — survive), and a subsequent
`load_model` call starts a fresh load attempt. -/
theorem load_failure_returns_unloaded (s : WMState) (msg : List Char)
    (hl : s.isLoaded = false) :
    (loadModelThread s (.failure msg)).1.isLoaded = false
    ∧ (loadModelThread s (.failure msg)).1.isLoading = false
    ∧ (loadModelThread s (.failure msg)).2 = [WEvent.modelLoadError msg]
    ∧ (loadModel (loadModelThread s (.failure msg)).1).2 = true := by
  unfold loadModelThread loadModel
  simp [hl]

/-- Witness for C7 at the state `load_model` actually hands to the
load thread. -/
theorem load_failure_returns_unloaded_witness :
    (loadModel initWM).1.isLoaded = false
    ∧ (loadModelThread (loadModel initWM).1 (.failure ("boom".toList))).1.isLoaded
        = false
    ∧ (loadModelThread (loadModel initWM).1 (.failure ("boom".toList))).1.isLoading
        = false
    ∧ (loadModelThread (loadModel initWM).1 (.failure ("boom".toList))).2
        = [WEvent.modelLoadError ("boom".toList)]
    ∧ (loadModel
        (loadModelThread (loadModel initWM).1 (.failure ("boom".toList))).1).2
        = true :=
  ⟨rfl,
   (load_failure_returns_unloaded (loadModel initWM).1 ("boom".toList) rfl).1,
   (load_failure_returns_unloaded (loadModel initWM).1 ("boom".toList) rfl).2.1,
   (load_failure_returns_unloaded (loadModel initWM).1 ("boom".toList) rfl).2.2.1,
   (load_failure_returns_unloaded (loadModel initWM).1 ("boom".toList) rfl).2.2.2⟩

/-- Claim C8: the audio capture queue holds at most 10 blocks — on a
queue already holding at most 10 blocks the producer callback keeps it
at most 10, never blocks, drops the new block with no other effect
when 10 blocks are held, and any sequence of deliveries keeps the
bound. -/
theorem audio_callback_bounded_drop (s : MicState) (b : Nat) (bs : List Nat)
    (hms : s.audioQueue.maxsize = 0)
    (hlen : s.audioQueue.items.length ≤ 10) :
    (audioCallback s b).1.audioQueue.items.length ≤ 10
    ∧ (audioCallback s b).2 = false
    ∧ (s.audioQueue.items.length = 10 → (audioCallback s b).1 = s)
    ∧ (runAudioCallbacks s bs).audioQueue.items.length ≤ 10 := by
  obtain ⟨_, h2, h3, h4⟩ := audioCallback_step s b hms hlen
  exact ⟨h2, h3, h4, runAudioCallbacks_bounded bs s hms hlen⟩

/-- Witness for C8: twelve blocks delivered to the capturing manager
leave at most 10 queued. -/
theorem audio_callback_bounded_drop_witness :
    micCapturing.audioQueue.maxsize = 0
    ∧ micCapturing.audioQueue.items.length ≤ 10
    ∧ (runAudioCallbacks micCapturing (List.range 12)).audioQueue.items.length
        ≤ 10 :=
  ⟨rfl, by decide,
   (audio_callback_bounded_drop micCapturing 0 (List.range 12) rfl
      (by decide)).2.2.2⟩

/-- Claim C9: an `audio_chunk` event handled while the manager is not
loaded is discarded by the early return — the whole state, and in
particular the transcription queue, the activity timestamp and the
pending idle-unload timer, is unchanged, and no warning is logged. -/
theorem audio_chunk_ignored_when_unloaded (s : WMState) (now c : Nat)
    (hl : s.isLoaded = false) :
    onAudioChunk s now c = (s, false)
    ∧ (onAudioChunk s now c).1.transcriptionQueue = s.transcriptionQueue
    ∧ (onAudioChunk s now c).1.lastActivityTime = s.lastActivityTime
    ∧ (onAudioChunk s now c).1.unloadTimer = s.unloadTimer := by
  have h : onAudioChunk s now c = (s, false) := by
    unfold onAudioChunk
    simp [hl]
  exact ⟨h, by rw [h], by rw [h], by rw [h]⟩

/-- Witness for C9 at the fresh (unloaded) manager state. -/
theorem audio_chunk_ignored_when_unloaded_witness :
    initWM.isLoaded = false ∧ onAudioChunk initWM 5 7 = (initWM, false) :=
  ⟨rfl, (audio_chunk_ignored_when_unloaded initWM 5 7 rfl).1⟩

/-- Claim C10: after `unregister_hotkey` the configured chord set and
the held-key set are both empty, and for every subsequent sequence of
press/release events the chord-satisfaction test returns false and the
toggle callback is never invoked. -/
theorem unregister_disables_hotkey (st : HMState) (evs : List KEvent) :
    (unregisterHotkey st).required = []
    ∧ (unregisterHotkey st).current = []
    ∧ (runKeys (unregisterHotkey st) evs).2 = 0
    ∧ isHotkeyPressed (runKeys (unregisterHotkey st) evs).1.required
        (runKeys (unregisterHotkey st) evs).1.current = false := by
  have h := runKeys_empty_required evs (unregisterHotkey st) rfl
  refine ⟨rfl, rfl, h.2, ?_⟩
  rw [h.1]
  exact isHotkeyPressed_nil _

end TransKriptor
